import Mathlib

/- FreshFarm storefront cart core, shallowly embedded from the TypeScript
source: the CartContext provider (cart normalizer `optimizeCartItems`, the
delivery packer `packForDelivery`, the mutations `addToCart`,
`removeFromCart`, `updateQuantity`) and the `useRecommendations` hook
(local recommendation scorer with optional remote delegation).

Modelling conventions:
* TypeScript numbers are modelled as exact rationals (`Rat`); ids,
  quantities and affinity scores, which the code only ever takes from
  integer literals or integer counting, are modelled as `Int` or `Nat`.
* A product id whose `Number(...)` coercion is `NaN` (a non-numeric id) is
  modelled as `none : Option Int`; a numeric id is `some n`.  `Map` and
  `Set` keying in the scorer uses SameValueZero equality, which coincides
  with decidable equality on `Option Int`.
* `Array.prototype.sort` with a consistent comparator is a stable sort
  (ES2019); it is modelled extensionally by `List.insertionSort` with the
  order relation "comparator a b ≤ 0", which is the unique stable sort for
  that relation.
* `Date.now()` is an external input and is passed explicitly as the clock
  reading `now`; `Math.random()` driven shuffling is passed explicitly as a
  `shuffle` function, as the spec requires the shuffle source to be
  injectable. -/

namespace FreshFarm

/- `Product` from ProductCard.tsx.  `id` is declared `number` in the
source; `none` models the defensive non-numeric case where `Number(id)`
is `NaN`. -/
structure Product where
  id : Option Int
  name : String
  image : String := ""
  category : String := ""
  description : String := ""
  price : Rat := 0
  weightKg : Option Rat := none
  volumeCm3 : Option Rat := none
  tags : Option (List String ⊕ String) := none
  onSale : Bool := false
  salePrice : Option Rat := none
deriving Repr, DecidableEq

/- `CartItem extends Product` with a `quantity`; cart items carry the
normalized (always numeric) id. -/
structure CartItem where
  id : Int
  name : String
  image : String := ""
  category : String := ""
  description : String := ""
  price : Rat := 0
  weightKg : Option Rat := none
  volumeCm3 : Option Rat := none
  tags : Option (List String ⊕ String) := none
  onSale : Bool := false
  salePrice : Option Rat := none
  quantity : Int
deriving Repr, DecidableEq

/- The spread `{...product, id: normalizedId, quantity}` in `addToCart`. -/
def Product.toCartItem (p : Product) (normalizedId : Int) (quantity : Int) :
    CartItem :=
  { id := normalizedId
    name := p.name
    image := p.image
    category := p.category
    description := p.description
    price := p.price
    weightKg := p.weightKg
    volumeCm3 := p.volumeCm3
    tags := p.tags
    onSale := p.onSale
    salePrice := p.salePrice
    quantity := quantity }

/- Unit efficiency `a.price / a.quantity` from the sort comparator in
`optimizeCartItems`. -/
def efficiency (it : CartItem) : Rat := it.price / (it.quantity : Rat)

/- The comparator `(a, b) => aEfficiency - bEfficiency` sorts ascending by
efficiency; as a stable-sort order relation: a may precede b iff the
comparator is ≤ 0, i.e. efficiency a ≤ efficiency b. -/
def effRel (a b : CartItem) : Prop := efficiency a ≤ efficiency b

instance : DecidableRel effRel := fun a b =>
  inferInstanceAs (Decidable (efficiency a ≤ efficiency b))

/- `optimizeCartItems`: drop lines with quantity ≤ 0, then stable-sort
ascending by unit efficiency. -/
def optimizeCartItems (cartItems : List CartItem) : List CartItem :=
  List.insertionSort effRel (cartItems.filter fun it => 0 < it.quantity)

/- `packForDelivery` options; both fields optional with defaults 10 kg and
40000 cm³ applied inside `packForDelivery`. -/
structure PackOptions where
  maxWeightKg : Option Rat := none
  maxVolumeCm3 : Option Rat := none
deriving Repr, DecidableEq

structure DeliveryBox where
  boxId : Int
  items : List CartItem
  totalWeightKg : Rat
  totalVolumeCm3 : Rat
deriving Repr, DecidableEq

/- `unit.weightKg ?? 0` and `unit.volumeCm3 ?? 0`. -/
def unitWeight (it : CartItem) : Rat := it.weightKg.getD 0

def unitVolume (it : CartItem) : Rat := it.volumeCm3.getD 0

/- Sizing metric: volume if present, else weight in grams, else 0. -/
def metric (it : CartItem) : Rat :=
  match it.volumeCm3 with
  | some v => v
  | none =>
    match it.weightKg with
    | some w => w * 1000
    | none => 0

/- Quantity expansion: each line becomes `quantity` unit copies with
quantity 1 (the `for (let i = 0; i < it.quantity; i++)` loop; a
non-positive quantity yields no units). -/
def expandUnits (items : List CartItem) : List CartItem :=
  items.flatMap fun it =>
    List.replicate it.quantity.toNat { it with quantity := 1 }

/- Comparator `(a, b) => metric(b) - metric(a)`: descending by metric. -/
def metricDescRel (a b : CartItem) : Prop := metric b ≤ metric a

instance : DecidableRel metricDescRel := fun a b =>
  inferInstanceAs (Decidable (metric b ≤ metric a))

/- The capacity test of the packing loop for one candidate box. -/
def fitsInBox (maxW maxV : Rat) (box : DeliveryBox) (u : CartItem) : Prop :=
  box.totalWeightKg + unitWeight u ≤ maxW ∧
    box.totalVolumeCm3 + unitVolume u ≤ maxV

instance (maxW maxV : Rat) (box : DeliveryBox) (u : CartItem) :
    Decidable (fitsInBox maxW maxV box u) :=
  inferInstanceAs (Decidable (_ ∧ _))

/- Pushing a unit into a box and updating its running sums. -/
def addToBox (box : DeliveryBox) (u : CartItem) : DeliveryBox :=
  { box with
      items := box.items ++ [u]
      totalWeightKg := box.totalWeightKg + unitWeight u
      totalVolumeCm3 := box.totalVolumeCm3 + unitVolume u }

/- The scan over existing boxes in creation order: place the unit into the
first box that passes the capacity test, `none` when no box fits. -/
def tryPlace (maxW maxV : Rat) (u : CartItem) :
    List DeliveryBox → Option (List DeliveryBox)
  | [] => none
  | box :: rest =>
    if fitsInBox maxW maxV box u then some (addToBox box u :: rest)
    else (tryPlace maxW maxV u rest).map (box :: ·)

/- One iteration of the packing loop: place into the first fitting box, or
open a new box `{boxId := boxes.length + 1, items := [unit], ...}`. -/
def placeUnit (maxW maxV : Rat) (boxes : List DeliveryBox) (u : CartItem) :
    List DeliveryBox :=
  match tryPlace maxW maxV u boxes with
  | some boxes2 => boxes2
  | none =>
    boxes ++ [{ boxId := (boxes.length : Int) + 1
                items := [u]
                totalWeightKg := unitWeight u
                totalVolumeCm3 := unitVolume u }]

/- `packForDelivery`: defaults, expansion, descending stable sort by the
sizing metric, then first-fit over the boxes. -/
def packForDelivery (items : List CartItem) (options : PackOptions) :
    List DeliveryBox :=
  let maxW := options.maxWeightKg.getD 10
  let maxV := options.maxVolumeCm3.getD 40000
  (List.insertionSort metricDescRel (expandUnits items)).foldl
    (placeUnit maxW maxV) []

/- The provider call `packForDelivery(options)` viewed together with the
provider state: the source computes the boxes from fresh unit copies
(`{...it, quantity: 1}`), sorts a `.slice()` copy, and never calls
`setItems` nor writes through `items`, so the items state after the call
is the items state before it. -/
def packForDeliveryCall (items : List CartItem) (options : PackOptions) :
    List DeliveryBox × List CartItem :=
  (packForDelivery items options, items)

/- All units over all produced boxes. -/
def boxedUnits (boxes : List DeliveryBox) : List CartItem :=
  boxes.flatMap (·.items)

/- The defensive id normalization of `addToCart`: `Number(product.id)`
when numeric, else the `-Date.now()` sentinel, with `now` the clock
reading at the call. -/
def normalizeProductId (now : Int) (product : Product) : Int :=
  match product.id with
  | some n => n
  | none => -now

/- `addToCart`: normalize the id, merge into an existing line with the
same id or append a fresh line, then re-run the normalizer. -/
def addToCart (now : Int) (currentItems : List CartItem) (product : Product)
    (quantity : Int) : List CartItem :=
  match List.findIdx?
      (fun it => it.id = normalizeProductId now product) currentItems with
  | some existingIndex =>
    optimizeCartItems (currentItems.enum.map fun e =>
      if e.1 = existingIndex then
        { e.2 with quantity := e.2.quantity + quantity }
      else e.2)
  | none =>
    optimizeCartItems (currentItems ++
      [product.toCartItem (normalizeProductId now product) quantity])

/- `removeFromCart`: filter the line out, then re-run the normalizer. -/
def removeFromCart (currentItems : List CartItem) (productId : Int) :
    List CartItem :=
  optimizeCartItems (currentItems.filter fun it => it.id ≠ productId)

/- `updateQuantity`: quantity ≤ 0 delegates to removal, otherwise replace
the quantity of the matching line and re-run the normalizer. -/
def updateQuantity (currentItems : List CartItem) (productId : Int)
    (quantity : Int) : List CartItem :=
  if quantity ≤ 0 then removeFromCart currentItems productId
  else
    optimizeCartItems (currentItems.map fun it =>
      if it.id = productId then { it with quantity := quantity } else it)

/- Recommendation scorer: the useRecommendations hook. -/

structure UserHistory where
  userId : String
  items : List Int
deriving Repr, DecidableEq

/- The fixed simulated purchase baskets used for association scoring. -/
def mockPurchaseHistory : List UserHistory :=
  [ { userId := "user1", items := [1, 2] },
    { userId := "user2", items := [1, 3] },
    { userId := "user3", items := [2, 3] },
    { userId := "user4", items := [1, 2, 3] },
    { userId := "user5", items := [1, 2] },
    { userId := "user6", items := [2, 3] } ]

structure Recommendation where
  product : Product
  reason : String
  score : Int
deriving Repr, DecidableEq

/- The reason tags used by the scorer. -/
def reasonBoughtTogether : String := "bought together"

def reasonBrowsingHistory : String := "browsing history"

def reasonSameTag : String := "same tag"

def reasonSameCategory : String := "same category"

def reasonServer : String := "server"

/- Scorer options; all optional, with defaults 5 and 10 for the result
count bounds. -/
structure RecOptions where
  browsingHistory : Option (List Int) := none
  minRecommendations : Option Nat := none
  maxRecommendations : Option Nat := none
  purchasedIds : Option (List Int) := none
deriving Repr, DecidableEq

def isTagDelimiter (c : Char) : Bool := c = ',' || c = '|' || c = ';'

/- `normalizeTags`: no tags gives []; an array maps to lowercase; a string
is split on the delimiters, trimmed, lowercased, and cleared of empty
pieces. -/
def normalizeTags (p : Product) : List String :=
  match p.tags with
  | none => []
  | some (Sum.inl arr) => arr.map String.toLower
  | some (Sum.inr s) =>
    ((s.split isTagDelimiter).map fun t => t.trim.toLower).filter
      fun t => t ≠ ""

/- The `productById` map is built by `set` over the catalog in order, so
`get` returns the last product stored under the key (SameValueZero on the
`Option Int` id). -/
def productById (allProducts : List Product) (pid : Option Int) :
    Option Product :=
  (allProducts.filter fun p => p.id = pid).getLast?

/- The mutable `recs` array and `seen` set of the computation, as one
state value. -/
structure RecState where
  recs : List Recommendation
  seen : List (Option Int)
deriving Repr, DecidableEq

/- The `push` closure: skip an id already in the cart, already seen, or
already purchased; skip an id with no catalog product; otherwise mark the
id seen and append the recommendation. -/
def push (cartIds purchased : List (Option Int))
    (allProducts : List Product) (st : RecState) (pid : Option Int)
    (reason : String) (score : Int) : RecState :=
  if pid ∈ cartIds ∨ pid ∈ st.seen ∨ pid ∈ purchased then st
  else
    match productById allProducts pid with
    | none => st
    | some prod =>
      { recs :=
          st.recs ++ [{ product := prod, reason := reason, score := score }]
        seen := st.seen ++ [pid] }

/- `freq.set(id, (freq.get(id) || 0) + 1)` on an insertion-ordered map. -/
def bumpFreq (freq : List (Int × Nat)) (id : Int) : List (Int × Nat) :=
  if freq.any fun e => e.1 = id then
    freq.map fun e => if e.1 = id then (e.1, e.2 + 1) else e
  else freq ++ [(id, 1)]

/- Over the baskets that share at least one cart item, count every basket
id that is not itself in the cart. -/
def buildFreq (cartIds : List (Option Int)) : List (Int × Nat) :=
  mockPurchaseHistory.foldl
    (fun freq h =>
      if h.items.any fun id => some id ∈ cartIds then
        h.items.foldl
          (fun fr id => if some id ∈ cartIds then fr else bumpFreq fr id)
          freq
      else freq)
    []

/- Comparator `([, a], [, b]) => b - a` on map entries: descending count. -/
def countDescRel (x y : Int × Nat) : Prop := y.2 ≤ x.2

instance : DecidableRel countDescRel := fun x y =>
  inferInstanceAs (Decidable (y.2 ≤ x.2))

def tagCountDescRel (x y : String × Nat) : Prop := y.2 ≤ x.2

instance : DecidableRel tagCountDescRel := fun x y =>
  inferInstanceAs (Decidable (y.2 ≤ x.2))

/- Insertion-ordered string set. -/
def addTag (s : List String) (t : String) : List String :=
  if t ∈ s then s else s ++ [t]

/- The tag set collected from the browsing-history products. -/
def browsingTags (allProducts : List Product) (ids : List Int) :
    List String :=
  ids.foldl
    (fun btags bid =>
      match productById allProducts (some bid) with
      | none => btags
      | some bp => (normalizeTags bp).foldl addTag btags)
    []

/- The browsing-history pass: for each catalog product not in the cart and
not yet seen, push it scored by the number of shared tags when positive. -/
def tagOverlapPhase (cartIds purchased : List (Option Int))
    (allProducts : List Product) (btags : List String) (st : RecState) :
    RecState :=
  allProducts.foldl
    (fun s p =>
      if p.id ∈ cartIds ∨ p.id ∈ s.seen then s
      else
        let shared := ((normalizeTags p).filter fun t => t ∈ btags).length
        if 0 < shared then
          push cartIds purchased allProducts s p.id reasonBrowsingHistory
            (shared : Int)
        else s)
    st

/- The same-category backfill: `continue` on cart or seen ids skips the
break test; otherwise push on a category match, then break once the
result count reaches the maximum. -/
def sameCategoryPhase (cartIds purchased : List (Option Int))
    (allProducts : List Product) (cartCategories : List String)
    (MAX : Nat) : List Product → RecState → RecState
  | [], st => st
  | p :: ps, st =>
    if p.id ∈ cartIds ∨ p.id ∈ st.seen then
      sameCategoryPhase cartIds purchased allProducts cartCategories MAX ps
        st
    else
      let st2 :=
        if p.category ∈ cartCategories then
          push cartIds purchased allProducts st p.id reasonSameCategory 1
        else st
      if MAX ≤ st2.recs.length then st2
      else
        sameCategoryPhase cartIds purchased allProducts cartCategories MAX
          ps st2

/- `tagFreq.set(t, (tagFreq.get(t) || 0) + 1)` over every normalized tag
of every catalog product. -/
def bumpTagFreq (freq : List (String × Nat)) (t : String) :
    List (String × Nat) :=
  if freq.any fun e => e.1 = t then
    freq.map fun e => if e.1 = t then (e.1, e.2 + 1) else e
  else freq ++ [(t, 1)]

def tagFreqOf (allProducts : List Product) : List (String × Nat) :=
  allProducts.foldl (fun fr p => (normalizeTags p).foldl bumpTagFreq fr) []

/- The three globally most frequent tags (stable descending sort, take
3). -/
def topSeedTags (allProducts : List Product) : List String :=
  ((List.insertionSort tagCountDescRel (tagFreqOf allProducts)).take 3).map
    (·.1)

/- The empty-cart pass: per seed tag, shuffle the untaken matching
candidates, push up to 2 of them, and break once the result count reaches
the maximum.  `shuffle` stands for the Fisher-Yates shuffle driven by
`Math.random()`. -/
def sameTagPhase (cartIds purchased : List (Option Int))
    (allProducts : List Product) (shuffle : List Product → List Product)
    (MAX : Nat) : List String → RecState → RecState
  | [], st => st
  | tag :: rest, st =>
    let candidates := allProducts.filter fun p =>
      tag ∈ normalizeTags p ∧ p.id ∉ cartIds ∧ p.id ∉ st.seen
    let st2 := ((shuffle candidates).take 2).foldl
      (fun s p => push cartIds purchased allProducts s p.id reasonSameTag 1)
      st
    if MAX ≤ st2.recs.length then st2
    else sameTagPhase cartIds purchased allProducts shuffle MAX rest st2

/- The fixed reason-priority ranking of the final sort. -/
def reasonPriority (r : String) : Int :=
  if r = reasonBoughtTogether then 4
  else if r = reasonBrowsingHistory then 3
  else if r = reasonSameTag then 2
  else if r = reasonSameCategory then 1
  else 0

/- The final comparator: descending score, then descending reason
priority, then ascending case-sensitive name.  As a stable-sort order
relation, a may precede b iff the comparator value is ≤ 0. -/
def recBefore (a b : Recommendation) : Prop :=
  b.score < a.score ∨
    (a.score = b.score ∧
      (reasonPriority b.reason < reasonPriority a.reason ∨
        (reasonPriority a.reason = reasonPriority b.reason ∧
          a.product.name ≤ b.product.name)))

instance : DecidableRel recBefore := fun a b =>
  inferInstanceAs (Decidable (_ ∨ _))

/- The tail of the local computation: stable sort by the final comparator,
then `slice(0, Math.max(MIN, Math.min(MAX, recs.length)))`. -/
def truncateRecs (MIN MAX : Nat) (recs : List Recommendation) :
    List Recommendation :=
  let sortedRecs := List.insertionSort recBefore recs
  sortedRecs.take (max MIN (min MAX sortedRecs.length))

/- The branch on cart state: the body of the local scorer up to the final
sort and slice.  `MIN`, `MAX`, `cartIds` and `purchased` are the values
computed at the head of `localCompute` and in scope in the closure. -/
def scoreState (cartItems : List CartItem) (allProducts : List Product)
    (options : RecOptions) (shuffle : List Product → List Product)
    (MIN MAX : Nat) (cartIds purchased : List (Option Int)) : RecState :=
  let st0 : RecState := { recs := [], seen := [] }
  if 0 < cartItems.length then
      let stA := (List.insertionSort countDescRel (buildFreq cartIds)).foldl
        (fun s e =>
          push cartIds purchased allProducts s (some e.1)
            reasonBoughtTogether (e.2 : Int))
        st0
      let browsing := options.browsingHistory.getD []
      let stB :=
        if 0 < browsing.length then
          let btags := browsingTags allProducts browsing
          if 0 < btags.length then
            tagOverlapPhase cartIds purchased allProducts btags stA
          else stA
        else stA
      if stB.recs.length < MIN then
        let cartCategories := cartItems.map (·.category)
        sameCategoryPhase cartIds purchased allProducts cartCategories MAX
          allProducts stB
      else stB
    else
      let seed := options.browsingHistory.getD []
      let fromSeed := browsingTags allProducts seed
      let seedTags :=
        if fromSeed.length = 0 then topSeedTags allProducts else fromSeed
      sameTagPhase cartIds purchased allProducts shuffle MAX seedTags st0

/- The local scorer (the `localCompute` memo of the hook): defaults, the
cart-state branch, then the final sort and slice. -/
def localCompute (cartItems : List CartItem) (allProducts : List Product)
    (options : RecOptions) (shuffle : List Product → List Product) :
    List Recommendation :=
  truncateRecs (options.minRecommendations.getD 5)
    (options.maxRecommendations.getD 10)
    (scoreState cartItems allProducts options shuffle
      (options.minRecommendations.getD 5)
      (options.maxRecommendations.getD 10)
      (cartItems.map fun i => some i.id)
      ((options.purchasedIds.getD []).map fun n => some n)).recs

/- One entry of a remote recommendation response: `Number(r.id)` (with
`none` for `NaN`), and the optional `reason` and `score` fields;
`Number(r.score) || 0` maps an absent or `NaN` score to 0, modelled by
`none`. -/
structure ServerRec where
  id : Option Int
  reason : Option String := none
  score : Option Int := none
deriving Repr, DecidableEq

/- `Number(p.id) === Number(r.id)`: strict equality is false when either
side is `NaN`. -/
def strictIdEq (a b : Option Int) : Bool :=
  match a, b with
  | some x, some y => x = y
  | _, _ => false

/- `r.reason || "server"`: an absent or empty reason falls back. -/
def serverReason (r : ServerRec) : String :=
  match r.reason with
  | some s => if s = "" then reasonServer else s
  | none => reasonServer

/- Mapping the raw response onto catalog products with
`allProducts.find(...)`, dropping entries with no catalog product. -/
def mapServerResponse (allProducts : List Product) (res : List ServerRec) :
    List Recommendation :=
  res.filterMap fun r =>
    match allProducts.find? fun p => strictIdEq p.id r.id with
    | none => none
    | some prod =>
      some { product := prod, reason := serverReason r,
             score := r.score.getD 0 }

/- The hook result.  `remote = some res` models a successful remote call
returning the array `res`; `none` models an absent capability or any
failure.  A non-empty mapped result is used verbatim, truncated to the
maximum; otherwise the local computation is used. -/
def useRecommendations (remote : Option (List ServerRec))
    (cartItems : List CartItem) (allProducts : List Product)
    (options : RecOptions) (shuffle : List Product → List Product) :
    List Recommendation :=
  match remote with
  | some res =>
    let mapped := mapServerResponse allProducts res
    if 0 < mapped.length then
      mapped.take (options.maxRecommendations.getD 10)
    else localCompute cartItems allProducts options shuffle
  | none => localCompute cartItems allProducts options shuffle

/- Order facts for the normalizer comparator. -/

instance : IsTotal CartItem effRel :=
  ⟨fun a b => le_total (efficiency a) (efficiency b)⟩

instance : IsTrans CartItem effRel :=
  ⟨fun _ _ _ hab hbc => le_trans hab hbc⟩

theorem optimize_sorted (l : List CartItem) :
    List.Sorted effRel (optimizeCartItems l) :=
  List.sorted_insertionSort effRel _

theorem optimize_mem_pos (l : List CartItem) :
    ∀ it ∈ optimizeCartItems l, 0 < it.quantity := by
  intro it hmem
  have h2 : it ∈ l.filter fun it => 0 < it.quantity :=
    ((List.perm_insertionSort effRel _).mem_iff).mp hmem
  simpa using List.of_mem_filter h2

theorem optimize_forall_pos (l : List CartItem) :
    (optimizeCartItems l).Forall fun it => 0 < it.quantity :=
  List.forall_iff_forall_mem.mpr (optimize_mem_pos l)

theorem optimize_chain_eff (l : List CartItem) :
    List.Chain'
      (fun a b =>
        a.price / (a.quantity : Rat) ≤ b.price / (b.quantity : Rat))
      (optimizeCartItems l) :=
  List.Pairwise.chain' ((optimize_sorted l).imp fun h => h)

/-- C6: for every cart line list with positive quantities and non-negative
prices, every adjacent pair (a, b) of the normalizer output satisfies
a.price / a.quantity ≤ b.price / b.quantity (ascending unit efficiency,
lower first). -/
theorem C6_normalizer_ascending_efficiency (L : List CartItem)
    (hq : L.Forall fun it => 0 < it.quantity)
    (hp : L.Forall fun it => 0 ≤ it.price) :
    List.Chain'
      (fun a b =>
        a.price / (a.quantity : Rat) ≤ b.price / (b.quantity : Rat))
      (optimizeCartItems L) :=
  optimize_chain_eff L

def c6ItemA : CartItem :=
  { id := 1
    name := "apples"
    price := 4
    quantity := 2 }

def c6ItemB : CartItem :=
  { id := 2
    name := "basil"
    price := 1
    quantity := 1 }

/-- Witness for C6 at a concrete two-line cart. -/
theorem C6_normalizer_ascending_efficiency_witness :
    ([c6ItemA, c6ItemB].Forall fun it => 0 < it.quantity) ∧
    ([c6ItemA, c6ItemB].Forall fun it => 0 ≤ it.price) ∧
    List.Chain'
      (fun a b =>
        a.price / (a.quantity : Rat) ≤ b.price / (b.quantity : Rat))
      (optimizeCartItems [c6ItemA, c6ItemB]) :=
  ⟨by decide, by decide,
    C6_normalizer_ascending_efficiency [c6ItemA, c6ItemB] (by decide)
      (by decide)⟩

theorem optimize_filter_eq (l : List CartItem) :
    (optimizeCartItems l).filter (fun it => 0 < it.quantity) =
      optimizeCartItems l :=
  List.filter_eq_self.mpr fun a ha => by
    simpa using optimize_mem_pos l a ha

/-- C7: the normalizer is idempotent: applying optimizeCartItems twice
gives the same list as applying it once. -/
theorem C7_normalizer_idempotent (L : List CartItem) :
    optimizeCartItems (optimizeCartItems L) = optimizeCartItems L := by
  show List.insertionSort effRel
      ((optimizeCartItems L).filter fun it => 0 < it.quantity) =
    optimizeCartItems L
  rw [optimize_filter_eq]
  exact (optimize_sorted L).insertionSort_eq

theorem addToCart_eq_optimize (now : Int) (items : List CartItem)
    (product : Product) (q : Int) :
    ∃ l, addToCart now items product q = optimizeCartItems l := by
  unfold addToCart
  split
  · exact ⟨_, rfl⟩
  · exact ⟨_, rfl⟩

theorem removeFromCart_eq_optimize (items : List CartItem) (pid : Int) :
    ∃ l, removeFromCart items pid = optimizeCartItems l :=
  ⟨_, rfl⟩

theorem updateQuantity_eq_optimize (items : List CartItem) (pid q : Int) :
    ∃ l, updateQuantity items pid q = optimizeCartItems l := by
  unfold updateQuantity removeFromCart
  split
  · exact ⟨_, rfl⟩
  · exact ⟨_, rfl⟩

/-- C9: every cart mutation (addToCart, removeFromCart, updateQuantity)
returns a list whose lines all have positive quantity and whose adjacent
pairs are in non-decreasing price/quantity order, even when the input
list did not satisfy this. -/
theorem C9_mutations_normalize (now : Int) (items : List CartItem)
    (product : Product) (q pid q2 : Int) :
    ((addToCart now items product q).Forall fun it => 0 < it.quantity) ∧
    List.Chain'
      (fun a b =>
        a.price / (a.quantity : Rat) ≤ b.price / (b.quantity : Rat))
      (addToCart now items product q) ∧
    ((removeFromCart items pid).Forall fun it => 0 < it.quantity) ∧
    List.Chain'
      (fun a b =>
        a.price / (a.quantity : Rat) ≤ b.price / (b.quantity : Rat))
      (removeFromCart items pid) ∧
    ((updateQuantity items pid q2).Forall fun it => 0 < it.quantity) ∧
    List.Chain'
      (fun a b =>
        a.price / (a.quantity : Rat) ≤ b.price / (b.quantity : Rat))
      (updateQuantity items pid q2) := by
  obtain ⟨la, ha⟩ := addToCart_eq_optimize now items product q
  obtain ⟨lr, hr⟩ := removeFromCart_eq_optimize items pid
  obtain ⟨lu, hu⟩ := updateQuantity_eq_optimize items pid q2
  rw [ha, hr, hu]
  exact ⟨optimize_forall_pos la, optimize_chain_eff la,
    optimize_forall_pos lr, optimize_chain_eff lr,
    optimize_forall_pos lu, optimize_chain_eff lu⟩

def c8ProductA : Product :=
  { id := none
    name := "heirloom basket"
    price := 5 }

def c8ProductB : Product :=
  { id := none
    name := "mystery crate"
    price := 7 }

/-- C8 counterexample: two distinct malformed products added at the same
clock reading (the same millisecond) receive the same synthetic id
-Date.now() and merge into a single cart line of quantity 2, so the
synthetic identity is not guaranteed unique. -/
theorem C8_counterexample :
    (addToCart 1000 (addToCart 1000 [] c8ProductA 1) c8ProductB 1).length
        = 1 ∧
    (addToCart 1000 (addToCart 1000 [] c8ProductA 1) c8ProductB 1).map
        (·.quantity) = [2] := by
  decide

/-- C8 (amended): a non-numeric product id never rejects the add: the
synthetic id is the negated clock reading, so two malformed adds at
distinct clock readings produce two separate cart lines; only adds within
the same clock reading can merge. -/
theorem C8_distinct_clock_no_merge (p1 p2 : Product) (t1 t2 q1 q2 : Int)
    (h1 : p1.id = none) (h2 : p2.id = none) (hne : t1 ≠ t2)
    (hq1 : 0 < q1) (hq2 : 0 < q2) :
    (addToCart t2 (addToCart t1 [] p1 q1) p2 q2).length = 2 := by
  have hid1 : normalizeProductId t1 p1 = -t1 := by
    simp [normalizeProductId, h1]
  have hfirst : addToCart t1 [] p1 q1 = [p1.toCartItem (-t1) q1] := by
    unfold addToCart
    rw [List.findIdx?_nil]
    show optimizeCartItems
        ([] ++ [p1.toCartItem (normalizeProductId t1 p1) q1]) = _
    rw [hid1]
    simp [optimizeCartItems, List.insertionSort, List.orderedInsert,
      Product.toCartItem, hq1]
  rw [hfirst]
  have hneg : ¬((-t1 : Int) = -t2) := fun hc => hne (neg_inj.mp hc)
  have hfind : List.findIdx?
      (fun it => it.id = normalizeProductId t2 p2)
      [p1.toCartItem (-t1) q1] = none := by
    simp [normalizeProductId, h2, Product.toCartItem, List.findIdx?_cons,
      List.findIdx?_nil, hneg]
  unfold addToCart
  rw [hfind]
  show (optimizeCartItems ([p1.toCartItem (-t1) q1] ++
      [p2.toCartItem (normalizeProductId t2 p2) q2])).length = 2
  unfold optimizeCartItems
  rw [List.length_insertionSort]
  simp [Product.toCartItem, hq1, hq2]

/-- Witness for the amended C8 at concrete clock readings 1 and 2. -/
theorem C8_distinct_clock_no_merge_witness :
    c8ProductA.id = none ∧ c8ProductB.id = none ∧ (1 : Int) ≠ 2 ∧
    (0 : Int) < 1 ∧
    (addToCart 2 (addToCart 1 [] c8ProductA 1) c8ProductB 1).length = 2 :=
  ⟨rfl, rfl, by decide, by decide,
    C8_distinct_clock_no_merge c8ProductA c8ProductB 1 2 1 1 rfl rfl
      (by decide) (by decide) (by decide)⟩

/- Capacity invariant of the packing loop. -/

def boxOk (maxW maxV : Rat) (b : DeliveryBox) : Prop :=
  b.items.length = 1 ∨
    (b.totalWeightKg ≤ maxW ∧ b.totalVolumeCm3 ≤ maxV)

theorem tryPlace_boxOk {maxW maxV : Rat} {u : CartItem}
    {boxes boxes2 : List DeliveryBox}
    (h : tryPlace maxW maxV u boxes = some boxes2)
    (hok : ∀ b ∈ boxes, boxOk maxW maxV b) :
    ∀ b ∈ boxes2, boxOk maxW maxV b := by
  induction boxes generalizing boxes2 with
  | nil => simp [tryPlace] at h
  | cons box rest ih =>
    rw [tryPlace] at h
    by_cases hfit : fitsInBox maxW maxV box u
    · rw [if_pos hfit] at h
      injection h with h
      subst h
      intro b hb
      rcases List.mem_cons.mp hb with rfl | hb
      · exact Or.inr ⟨hfit.1, hfit.2⟩
      · exact hok b (List.mem_cons_of_mem _ hb)
    · rw [if_neg hfit] at h
      obtain ⟨rest2, hr, hcons⟩ := Option.map_eq_some'.mp h
      subst hcons
      intro b hb
      rcases List.mem_cons.mp hb with rfl | hb
      · exact hok b (List.mem_cons_self _ _)
      · exact ih hr (fun c hc => hok c (List.mem_cons_of_mem _ hc)) b hb

theorem placeUnit_boxOk {maxW maxV : Rat} {boxes : List DeliveryBox}
    {u : CartItem} (hok : ∀ b ∈ boxes, boxOk maxW maxV b) :
    ∀ b ∈ placeUnit maxW maxV boxes u, boxOk maxW maxV b := by
  unfold placeUnit
  cases h : tryPlace maxW maxV u boxes with
  | some boxes2 => exact tryPlace_boxOk h hok
  | none =>
    intro b hb
    rcases List.mem_append.mp hb with hb | hb
    · exact hok b hb
    · rcases List.mem_singleton.mp hb with rfl
      exact Or.inl rfl

theorem foldl_placeUnit_boxOk (maxW maxV : Rat) (us : List CartItem)
    (boxes : List DeliveryBox) (hok : ∀ b ∈ boxes, boxOk maxW maxV b) :
    ∀ b ∈ us.foldl (placeUnit maxW maxV) boxes, boxOk maxW maxV b := by
  induction us generalizing boxes with
  | nil => exact hok
  | cons u us ih =>
    rw [List.foldl_cons]
    exact ih _ (placeUnit_boxOk hok)

/-- C1: every box produced by packForDelivery satisfies
totalWeightKg ≤ maxWeightKg (default 10) and
totalVolumeCm3 ≤ maxVolumeCm3 (default 40000), except possibly a box
whose items list contains exactly one unit. -/
theorem C1_pack_capacity (items : List CartItem) (options : PackOptions) :
    (packForDelivery items options).Forall fun b =>
      b.items.length = 1 ∨
        (b.totalWeightKg ≤ options.maxWeightKg.getD 10 ∧
          b.totalVolumeCm3 ≤ options.maxVolumeCm3.getD 40000) := by
  rw [List.forall_iff_forall_mem]
  intro b hb
  exact foldl_placeUnit_boxOk (options.maxWeightKg.getD 10)
    (options.maxVolumeCm3.getD 40000) _ [] (by simp) b hb

/- Unit preservation of the packing loop. -/

theorem boxedUnits_cons (b : DeliveryBox) (bs : List DeliveryBox) :
    boxedUnits (b :: bs) = b.items ++ boxedUnits bs := by
  simp [boxedUnits]

theorem tryPlace_units {maxW maxV : Rat} {u : CartItem}
    {boxes boxes2 : List DeliveryBox}
    (h : tryPlace maxW maxV u boxes = some boxes2) :
    (boxedUnits boxes2).Perm (u :: boxedUnits boxes) := by
  induction boxes generalizing boxes2 with
  | nil => simp [tryPlace] at h
  | cons box rest ih =>
    rw [tryPlace] at h
    by_cases hfit : fitsInBox maxW maxV box u
    · rw [if_pos hfit] at h
      injection h with h
      subst h
      rw [boxedUnits_cons, boxedUnits_cons]
      show ((box.items ++ [u]) ++ boxedUnits rest).Perm _
      rw [List.append_assoc]
      exact List.perm_middle
    · rw [if_neg hfit] at h
      obtain ⟨rest2, hr, hcons⟩ := Option.map_eq_some'.mp h
      subst hcons
      rw [boxedUnits_cons, boxedUnits_cons]
      exact ((ih hr).append_left box.items).trans List.perm_middle

theorem placeUnit_units (maxW maxV : Rat) (boxes : List DeliveryBox)
    (u : CartItem) :
    (boxedUnits (placeUnit maxW maxV boxes u)).Perm
      (u :: boxedUnits boxes) := by
  unfold placeUnit
  cases h : tryPlace maxW maxV u boxes with
  | some boxes2 => exact tryPlace_units h
  | none =>
    have hunits : boxedUnits (boxes ++
        [{ boxId := (boxes.length : Int) + 1
           items := [u]
           totalWeightKg := unitWeight u
           totalVolumeCm3 := unitVolume u }]) =
        boxedUnits boxes ++ [u] := by
      simp [boxedUnits]
    rw [hunits]
    exact List.perm_append_singleton u (boxedUnits boxes)

theorem foldl_placeUnit_units (maxW maxV : Rat) (us : List CartItem)
    (boxes : List DeliveryBox) :
    (boxedUnits (us.foldl (placeUnit maxW maxV) boxes)).Perm
      (us ++ boxedUnits boxes) := by
  induction us generalizing boxes with
  | nil => exact List.Perm.refl _
  | cons u us ih =>
    rw [List.foldl_cons]
    exact (ih _).trans
      (((placeUnit_units maxW maxV boxes u).append_left us).trans
        List.perm_middle)

theorem pack_units_perm (items : List CartItem) (options : PackOptions) :
    (boxedUnits (packForDelivery items options)).Perm
      (expandUnits items) := by
  have h := foldl_placeUnit_units (options.maxWeightKg.getD 10)
    (options.maxVolumeCm3.getD 40000)
    (List.insertionSort metricDescRel (expandUnits items)) []
  rw [show boxedUnits ([] : List DeliveryBox) = [] from rfl,
    List.append_nil] at h
  exact h.trans
    (List.perm_insertionSort metricDescRel (expandUnits items))

/-- C2: the multiset of quantity-one units across all boxes returned by
packForDelivery equals the multiset obtained by expanding each input line
of quantity N into N unit lines of quantity 1: no unit is lost and none
is duplicated. -/
theorem C2_pack_preserves_units (items : List CartItem)
    (options : PackOptions) :
    (boxedUnits (packForDelivery items options) : Multiset CartItem) =
      (expandUnits items : Multiset CartItem) :=
  Multiset.coe_eq_coe.mpr (pack_units_perm items options)

/-- C10: a packForDelivery call leaves the cart line list unchanged (the
provider state after the call is the state before it), and every unit in
every returned box is a quantity-one copy of an input line, not an
original line object. -/
theorem C10_pack_read_only (items : List CartItem)
    (options : PackOptions) :
    (packForDeliveryCall items options).2 = items ∧
      (packForDelivery items options).Forall fun b =>
        b.items.Forall fun u =>
          u.quantity = 1 ∧
            ∃ l, l ∈ items ∧ u = { l with quantity := 1 } := by
  refine ⟨rfl, ?_⟩
  rw [List.forall_iff_forall_mem]
  intro b hb
  rw [List.forall_iff_forall_mem]
  intro u hu
  have humem : u ∈ expandUnits items :=
    (pack_units_perm items options).subset
      (List.mem_flatMap.mpr ⟨b, hb, hu⟩)
  obtain ⟨l, hl, hrep⟩ := List.mem_flatMap.mp humem
  rcases List.eq_of_mem_replicate hrep with rfl
  exact ⟨rfl, l, hl, rfl⟩

def c3Bulky : CartItem :=
  { id := 1
    name := "hay bale"
    price := 0
    volumeCm3 := some 50000
    quantity := 1 }

def c3Zero : CartItem :=
  { id := 2
    name := "gift note"
    price := 0
    weightKg := some 0
    volumeCm3 := some 0
    quantity := 1 }

/-- C3 counterexample: packing a bulky line (50000 cm³) and a zero-weight
zero-volume line at default capacities, box 1 exists when the zero unit
is placed, yet the zero unit lands in box 2 and not box 1, because box 1
is over the volume capacity. -/
theorem C3_counterexample :
    ((packForDelivery [c3Bulky, c3Zero] {}).map fun b =>
        (b.boxId, b.items.map (·.id))) = [(1, [1]), (2, [2])] := by
  norm_num [packForDelivery, expandUnits, List.insertionSort,
    List.orderedInsert, metricDescRel, metric, placeUnit, tryPlace,
    fitsInBox, addToBox, unitWeight, unitVolume, c3Bulky, c3Zero]

/-- C3 (amended): during packing, a unit with zero weight and zero volume
is placed into the first existing box whenever that box is within both
capacity bounds, regardless of its fill level; a first box already over
capacity (an oversized singleton) is skipped. -/
theorem C3_zero_unit_placement (maxW maxV : Rat) (b0 : DeliveryBox)
    (bs : List DeliveryBox) (u : CartItem) (hw : unitWeight u = 0)
    (hv : unitVolume u = 0) (hbw : b0.totalWeightKg ≤ maxW)
    (hbv : b0.totalVolumeCm3 ≤ maxV) :
    placeUnit maxW maxV (b0 :: bs) u = addToBox b0 u :: bs := by
  have hfit : fitsInBox maxW maxV b0 u := by
    constructor
    · rw [hw, add_zero]; exact hbw
    · rw [hv, add_zero]; exact hbv
  unfold placeUnit
  rw [tryPlace, if_pos hfit]

def c3WitnessBox : DeliveryBox :=
  { boxId := 1
    items := [c3Bulky]
    totalWeightKg := 3
    totalVolumeCm3 := 100 }

/-- Witness for the amended C3: a zero-size unit joins a partially filled
first box. -/
theorem C3_zero_unit_placement_witness :
    unitWeight c3Zero = 0 ∧ unitVolume c3Zero = 0 ∧
    c3WitnessBox.totalWeightKg ≤ 10 ∧
    c3WitnessBox.totalVolumeCm3 ≤ 40000 ∧
    placeUnit 10 40000 [c3WitnessBox] c3Zero =
      [addToBox c3WitnessBox c3Zero] :=
  ⟨by decide, by decide, by decide, by decide,
    C3_zero_unit_placement 10 40000 c3WitnessBox [] c3Zero (by decide)
      (by decide) (by decide) (by decide)⟩

/- Exclusion invariant of the scorer. -/

def excludesIds (cartIds purchased : List (Option Int))
    (st : RecState) : Prop :=
  ∀ r ∈ st.recs, r.product.id ∉ cartIds ∧ r.product.id ∉ purchased

theorem productById_id {allProducts : List Product} {pid : Option Int}
    {prod : Product} (h : productById allProducts pid = some prod) :
    prod.id = pid := by
  unfold productById at h
  have hm := List.mem_of_mem_getLast? h
  simpa using List.of_mem_filter hm

theorem push_excludes {cartIds purchased : List (Option Int)}
    {allProducts : List Product} {st : RecState} {pid : Option Int}
    {reason : String} {score : Int}
    (h : excludesIds cartIds purchased st) :
    excludesIds cartIds purchased
      (push cartIds purchased allProducts st pid reason score) := by
  unfold push
  by_cases hguard : pid ∈ cartIds ∨ pid ∈ st.seen ∨ pid ∈ purchased
  · rw [if_pos hguard]; exact h
  · rw [if_neg hguard]
    cases hp : productById allProducts pid with
    | none => exact h
    | some prod =>
      intro r hr
      rcases List.mem_append.mp hr with hr | hr
      · exact h r hr
      · rcases List.mem_singleton.mp hr with rfl
        push_neg at hguard
        rw [show ({ product := prod, reason := reason, score := score } :
            Recommendation).product.id = pid from productById_id hp]
        exact ⟨hguard.1, hguard.2.2⟩

theorem foldl_preserves {α β : Type} (P : β → Prop) (f : β → α → β)
    (hf : ∀ st a, P st → P (f st a)) :
    ∀ (l : List α) (st : β), P st → P (l.foldl f st) := by
  intro l
  induction l with
  | nil => intro st h; exact h
  | cons a l ih =>
    intro st h
    rw [List.foldl_cons]
    exact ih _ (hf st a h)

theorem emptyState_excludes (cartIds purchased : List (Option Int)) :
    excludesIds cartIds purchased { recs := [], seen := [] } :=
  fun r hr => absurd hr (List.not_mem_nil r)

theorem tagOverlapPhase_excludes {cartIds purchased : List (Option Int)}
    {allProducts : List Product} {btags : List String} {st : RecState}
    (h : excludesIds cartIds purchased st) :
    excludesIds cartIds purchased
      (tagOverlapPhase cartIds purchased allProducts btags st) := by
  unfold tagOverlapPhase
  refine foldl_preserves _ _ ?_ allProducts st h
  intro s p hs
  dsimp only
  split
  · exact hs
  · split
    · exact push_excludes hs
    · exact hs

theorem sameCategoryPhase_excludes {cartIds purchased : List (Option Int)}
    {allProducts : List Product} {cartCategories : List String}
    {MAX : Nat} (ps : List Product) (st : RecState)
    (h : excludesIds cartIds purchased st) :
    excludesIds cartIds purchased
      (sameCategoryPhase cartIds purchased allProducts cartCategories MAX
        ps st) := by
  induction ps generalizing st with
  | nil => exact h
  | cons p ps ih =>
    rw [sameCategoryPhase]
    have hcont : ∀ st2 : RecState, excludesIds cartIds purchased st2 →
        excludesIds cartIds purchased
          (if MAX ≤ st2.recs.length then st2
           else
             sameCategoryPhase cartIds purchased allProducts
               cartCategories MAX ps st2) := by
      intro st2 h2
      split
      · exact h2
      · exact ih _ h2
    split
    · exact ih st h
    · refine hcont _ ?_
      split
      · exact push_excludes h
      · exact h

theorem sameTagPhase_excludes {cartIds purchased : List (Option Int)}
    {allProducts : List Product}
    {shuffle : List Product → List Product} {MAX : Nat}
    (tags : List String) (st : RecState)
    (h : excludesIds cartIds purchased st) :
    excludesIds cartIds purchased
      (sameTagPhase cartIds purchased allProducts shuffle MAX tags
        st) := by
  induction tags generalizing st with
  | nil => exact h
  | cons tag rest ih =>
    rw [sameTagPhase]
    have hcont : ∀ st2 : RecState, excludesIds cartIds purchased st2 →
        excludesIds cartIds purchased
          (if MAX ≤ st2.recs.length then st2
           else
             sameTagPhase cartIds purchased allProducts shuffle MAX rest
               st2) := by
      intro st2 h2
      split
      · exact h2
      · exact ih _ h2
    exact hcont _
      (foldl_preserves _ _ (fun s p hs => push_excludes hs) _ _ h)

theorem scoreState_excludes (cartItems : List CartItem)
    (allProducts : List Product) (options : RecOptions)
    (shuffle : List Product → List Product) (MIN MAX : Nat)
    (cartIds purchased : List (Option Int)) :
    excludesIds cartIds purchased
      (scoreState cartItems allProducts options shuffle MIN MAX cartIds
        purchased) := by
  have h0 := emptyState_excludes cartIds purchased
  have hA : excludesIds cartIds purchased
      ((List.insertionSort countDescRel (buildFreq cartIds)).foldl
        (fun s e =>
          push cartIds purchased allProducts s (some e.1)
            reasonBoughtTogether (e.2 : Int))
        { recs := [], seen := [] }) :=
    foldl_preserves _ _ (fun s e hs => push_excludes hs) _ _ h0
  have hB : ∀ stA : RecState, excludesIds cartIds purchased stA →
      excludesIds cartIds purchased
        (if 0 < (options.browsingHistory.getD []).length then
          if 0 < (browsingTags allProducts
              (options.browsingHistory.getD [])).length then
            tagOverlapPhase cartIds purchased allProducts
              (browsingTags allProducts (options.browsingHistory.getD []))
              stA
          else stA
        else stA) := by
    intro stA hs
    split
    · split
      · exact tagOverlapPhase_excludes hs
      · exact hs
    · exact hs
  have hFinal : ∀ stB : RecState, excludesIds cartIds purchased stB →
      excludesIds cartIds purchased
        (if stB.recs.length < MIN then
          sameCategoryPhase cartIds purchased allProducts
            (cartItems.map (·.category)) MAX allProducts stB
        else stB) := by
    intro stB hs
    split
    · exact sameCategoryPhase_excludes _ _ hs
    · exact hs
  simp only [scoreState]
  split
  · exact hFinal _ (hB _ hA)
  · exact sameTagPhase_excludes _ _ h0

theorem truncateRecs_subset (MIN MAX : Nat)
    (recs : List Recommendation) :
    ∀ r ∈ truncateRecs MIN MAX recs, r ∈ recs := by
  intro r hr
  exact ((List.perm_insertionSort recBefore recs).mem_iff).mp
    (List.mem_of_mem_take hr)

/-- C4 (amended): in the local computation — used whenever remote
delegation is unavailable, fails, or maps to an empty list — no product
whose id is in the cart or among the purchased ids ever appears in the
output; the remote-delegation path applies no such filter to the mapped
server response. -/
theorem C4_local_excludes_cart_and_purchased (cartItems : List CartItem)
    (allProducts : List Product) (options : RecOptions)
    (shuffle : List Product → List Product) :
    (localCompute cartItems allProducts options shuffle).Forall fun r =>
      r.product.id ∉ (cartItems.map fun i => some i.id) ∧
      r.product.id ∉
        ((options.purchasedIds.getD []).map fun n => some n) := by
  rw [List.forall_iff_forall_mem]
  intro r hr
  have hr2 : r ∈ (scoreState cartItems allProducts options shuffle
      (options.minRecommendations.getD 5)
      (options.maxRecommendations.getD 10)
      (cartItems.map fun i => some i.id)
      ((options.purchasedIds.getD []).map fun n => some n)).recs :=
    truncateRecs_subset _ _ _ r hr
  exact scoreState_excludes cartItems allProducts options shuffle _ _ _ _
    r hr2

def c4Carrot : Product :=
  { id := some 2, name := "carrot" }

def c4CartLine : CartItem :=
  { id := 2
    name := "carrot"
    quantity := 1 }

def c4Response : List ServerRec := [{ id := some 2 }]

/-- C4 counterexample: on the remote-delegation path the mapped server
response is used verbatim, so a response naming a product already in the
cart places that product in the output. -/
theorem C4_counterexample :
    useRecommendations (some c4Response) [c4CartLine] [c4Carrot] {}
        (fun l => l) =
      [{ product := c4Carrot, reason := reasonServer, score := 0 }] ∧
    c4Carrot.id ∈ [c4CartLine].map fun i => some i.id := by
  constructor
  · rfl
  · decide

theorem truncateRecs_length_le (MIN MAX : Nat)
    (recs : List Recommendation) :
    (truncateRecs MIN MAX recs).length ≤ max MIN MAX := by
  refine le_trans (List.length_take_le _ _) ?_
  exact max_le_max le_rfl (min_le_left _ _)

theorem localCompute_length_le (cartItems : List CartItem)
    (allProducts : List Product) (options : RecOptions)
    (shuffle : List Product → List Product) :
    (localCompute cartItems allProducts options shuffle).length ≤
      max (options.minRecommendations.getD 5)
        (options.maxRecommendations.getD 10) :=
  truncateRecs_length_le _ _ _

/-- C5 (amended): the recommendation result length never exceeds
max(minRecommendations, maxRecommendations) (defaults 5/10); in
particular it is at most maxRecommendations whenever minRecommendations ≤
maxRecommendations, but when the minimum is set above the maximum the
local computation can exceed the maximum. -/
theorem C5_result_length_bound (remote : Option (List ServerRec))
    (cartItems : List CartItem) (allProducts : List Product)
    (options : RecOptions) (shuffle : List Product → List Product) :
    (useRecommendations remote cartItems allProducts options
        shuffle).length ≤
      max (options.minRecommendations.getD 5)
        (options.maxRecommendations.getD 10) := by
  unfold useRecommendations
  cases remote with
  | none =>
    exact localCompute_length_le cartItems allProducts options shuffle
  | some res =>
    dsimp only
    split
    · exact le_trans (List.length_take_le _ _) (le_max_right _ _)
    · exact localCompute_length_le cartItems allProducts options shuffle

def c5CartLine : CartItem :=
  { id := 1
    name := "tomato"
    category := "veg"
    quantity := 1 }

def c5Catalog : List Product :=
  [ { id := some 1, name := "tomato", category := "veg" },
    { id := some 2, name := "onion", category := "veg" },
    { id := some 3, name := "garlic", category := "veg" } ]

def c5Options : RecOptions :=
  { minRecommendations := some 3
    maxRecommendations := some 1 }

/-- C5 counterexample: with minRecommendations = 3 set larger than
maxRecommendations = 1, the computation returns 2 recommendations,
exceeding the configured maximum of 1. -/
theorem C5_counterexample :
    c5Options.maxRecommendations = some 1 ∧
    (useRecommendations none [c5CartLine] c5Catalog c5Options
        (fun l => l)).length = 2 := by
  constructor
  · rfl
  · decide

end FreshFarm
